import Mathlib

/-!
Shallow embedding of the plugin-based command routing subsystem of the
boo_bot repository (src/plugins/plugin_manager.py, src/plugins/plugin_interface.py,
src/boo_bot.py), together with theorems settling the frozen claims about it.

Python dicts are modelled as insertion-ordered association lists over `String`
keys: setting an existing key updates the value in place (keeping its
position), setting a fresh key appends, and deletion removes the entry.
-/

/-!
String helpers. The Python string methods used by the embedded code
(`str.lower`, `str.strip`, `str.startswith`, `str.endswith`, slicing) are
modelled over the character lists of Lean strings, restricted to ASCII case
mapping and ASCII whitespace — every string the embedded code manipulates here
is ASCII. (The core-library `String` methods are avoided because their
`Substring`-based implementations do not reduce inside the kernel.)
-/

/-- ASCII case mapping of one character, as `str.lower` acts on ASCII. -/
def lowerChar (c : Char) : Char :=
  if 65 ≤ c.toNat && c.toNat ≤ 90 then Char.ofNat (c.toNat + 32) else c

/-- `str.lower()`. -/
def pyLower (s : String) : String := ⟨s.data.map lowerChar⟩

/-- ASCII whitespace, as recognized by `str.strip()`. -/
def isSpaceChar (c : Char) : Bool := c == ' ' || c == '\t' || c == '\n' || c == '\r'

/-- `str.strip()`: remove whitespace from both ends. -/
def pyStrip (s : String) : String :=
  ⟨((s.data.dropWhile isSpaceChar).reverse.dropWhile isSpaceChar).reverse⟩

/-- List prefix test used by the two directional string tests below. -/
def listIsPfx {α : Type} [BEq α] : List α → List α → Bool
  | [], _ => true
  | _ :: _, [] => false
  | a :: as, b :: bs => a == b && listIsPfx as bs

/-- `str.startswith(pre)`. -/
def pyStartsWith (s pre : String) : Bool := listIsPfx pre.data s.data

/-- `str.endswith(post)`. -/
def pyEndsWith (s post : String) : Bool := listIsPfx post.data.reverse s.data.reverse

/-- `s[n:]`. -/
def pyDropChars (s : String) (n : Nat) : String := ⟨s.data.drop n⟩

/-- `d[k] = v` on a Python dict: update in place if the key exists, else append. -/
def dictSet {α : Type} (m : List (String × α)) (k : String) (v : α) : List (String × α) :=
  if m.any (fun e => e.1 == k) then
    m.map (fun e => if e.1 == k then (k, v) else e)
  else
    m ++ [(k, v)]

/-- `del d[k]` / `d.pop(k, None)` on a Python dict. -/
def dictPop {α : Type} (m : List (String × α)) (k : String) : List (String × α) :=
  m.filter (fun e => e.1 != k)

/-- `d.get(k)` on a Python dict. -/
def dictGet {α : Type} (m : List (String × α)) (k : String) : Option α :=
  (m.find? (fun e => e.1 == k)).map (fun e => e.2)

/-- `k in d` on a Python dict. -/
def dictContains {α : Type} (m : List (String × α)) (k : String) : Bool :=
  m.any (fun e => e.1 == k)

/-- `d.values()` on a Python dict, in insertion order. -/
def dictValues {α : Type} (m : List (String × α)) : List α :=
  m.map (fun e => e.2)

/-- A loaded plugin descriptor: `BotPlugin` from src/plugins/plugin_interface.py.
`__init__` sets `enabled = True`; `get_commands` is the `commands` field;
`handle_command` is modelled as a pure function that either returns an optional
reply (`Except.ok`) or raises (`Except.error`); `cleanup` is modelled by the flag
`cleanupOk`, true iff the coroutine completes without raising. -/
structure BotPlugin where
  name : String
  enabled : Bool
  commands : List String
  handle : String → String → String → String → Except Unit (Option String)
  cleanupOk : Bool

/-- `BotPlugin.can_handle`: `command in self.get_commands()`. -/
def BotPlugin.canHandle (p : BotPlugin) (c : String) : Bool :=
  p.commands.contains c

/-- `PluginManager.handle_command` (src/plugins/plugin_manager.py lines 260-272),
iterating over `self.plugins.values()` given as a list: for each enabled plugin
that can handle the command, call its handler; a non-None result is returned,
a None result or a raised exception moves on to the next plugin. -/
def handleCommand (plugins : List BotPlugin) (c a room user : String) : Option String :=
  match plugins with
  | [] => none
  | p :: rest =>
    if p.enabled && p.canHandle c then
      match p.handle c a room user with
      | .ok (some r) => some r
      | .ok none => handleCommand rest c a room user
      | .error _ => handleCommand rest c a room user
    else
      handleCommand rest c a room user

/-- Inner loop of `get_all_commands`: `for cmd in plugin.get_commands(): commands[cmd] = plugin.name`. -/
def addCmds (acc : List (String × String)) (p : BotPlugin) : List (String × String) :=
  p.commands.foldl (fun a cmd => dictSet a cmd p.name) acc

/-- Outer loop of `get_all_commands` over `self.plugins.values()`. -/
def getAllCommandsAux (acc : List (String × String)) : List BotPlugin → List (String × String)
  | [] => acc
  | p :: rest => getAllCommandsAux (if p.enabled then addCmds acc p else acc) rest

/-- `PluginManager.get_all_commands` (lines 274-281): builds the command → plugin-name
dict by iterating enabled plugins in insertion order; a later plugin overwrites the
entry of an earlier one claiming the same command. -/
def getAllCommands (plugins : List BotPlugin) : List (String × String) :=
  getAllCommandsAux [] plugins

/-- The mutable registry state of `PluginManager`: `self.plugins` and
`self.failed_plugins`. -/
structure ManagerState where
  plugins : List (String × BotPlugin)
  failed : List (String × String)

/-- A candidate class found in a plugin module: a strict `BotPlugin` subclass as
seen by the loader's `dir(module)` scan. `instantiate` below is `plugin_class()`;
`initOk` is the result of `await plugin.initialize(bot_instance)`, false also
covering an initializer that raises (both take the same failure path). -/
structure PluginClass where
  pluginName : String
  commands : List String
  handle : String → String → String → String → Except Unit (Option String)
  initOk : Bool
  cleanupOk : Bool

/-- `plugin_class()`: a fresh instance; `BotPlugin.__init__` sets `enabled = True`. -/
def PluginClass.instantiate (cls : PluginClass) : BotPlugin :=
  { name := cls.pluginName
    enabled := true
    commands := cls.commands
    handle := cls.handle
    cleanupOk := cls.cleanupOk }

/-- One plugin source unit (a `plugin.py` file): whether `exec_module` succeeds,
and the strict `BotPlugin` subclasses of the module in `dir(module)` order
(`dir` sorts attribute names; the loader takes the first subclass it meets). -/
structure SourceUnit where
  execOk : Bool
  classes : List PluginClass

/-- `PluginManager.load_plugin_from_file` (lines 139-197). Returns
(return value, new state, names of plugins whose `cleanup` hook was invoked).
Paths: failed module execution, no `BotPlugin` subclass found, `initialize`
failing, the old same-named plugin's `cleanup` raising (caught by the outer
`except`, so the new instance is never stored), and success, which stores the
new instance under its self-declared `plugin.name` and pops `plugin_name`
from `failed_plugins`. -/
def loadPluginFromFile (st : ManagerState) (src : SourceUnit) (pluginName : String) :
    Bool × ManagerState × List String :=
  if !src.execOk then
    (false, { st with failed := dictSet st.failed pluginName "Could not load module" }, [])
  else
    match src.classes with
    | [] =>
      (false, { st with failed := dictSet st.failed pluginName "No BotPlugin subclass found" }, [])
    | cls :: _ =>
      let plugin := cls.instantiate
      if cls.initOk then
        match dictGet st.plugins plugin.name with
        | some oldPlugin =>
          if oldPlugin.cleanupOk then
            (true,
             { plugins := dictSet st.plugins plugin.name plugin
               failed := dictPop st.failed pluginName },
             [oldPlugin.name])
          else
            (false,
             { st with failed := dictSet st.failed pluginName "cleanup raised" },
             [oldPlugin.name])
        | none =>
          (true,
           { plugins := dictSet st.plugins plugin.name plugin
             failed := dictPop st.failed pluginName },
           [])
      else
        (false,
         { st with failed := dictSet st.failed pluginName "Plugin initialization failed" },
         [])

/-- `PluginManager.unload_plugin` (lines 223-242): absent name returns `False`;
otherwise `cleanup` is awaited — if it raises, the `except` branch returns
`False` and the entry is never deleted; if it completes, the entry is deleted
and `True` returned. The trace records the invoked `cleanup` hook. -/
def unloadPlugin (st : ManagerState) (pluginName : String) :
    Bool × ManagerState × List String :=
  match dictGet st.plugins pluginName with
  | none => (false, st, [])
  | some p =>
    if p.cleanupOk then
      (true, { st with plugins := dictPop st.plugins pluginName }, [p.name])
    else
      (false, st, [p.name])

/-- `Path("(plugins_dir)/(name)/plugin.py").stem`: the default `plugin_name`
used when `reload_plugin` calls `load_plugin_from_file` without a name. -/
def pluginFileStem : String := "plugin"

/-- `PluginManager.reload_plugin` (lines 199-221): missing file returns `False`
untouched; otherwise the current plugin is unloaded first (its return value
ignored), then the new source is loaded with `plugin_name = None`, i.e. under
the file stem `"plugin"`. -/
def reloadPlugin (st : ManagerState) (fileExists : Bool) (src : SourceUnit)
    (pluginName : String) : Bool × ManagerState × List String :=
  if !fileExists then
    (false, st, [])
  else
    let unloaded :=
      if dictContains st.plugins pluginName then
        let r := unloadPlugin st pluginName
        (r.2.1, r.2.2)
      else
        (st, [])
    let r := loadPluginFromFile unloaded.1 src pluginFileStem
    (r.1, r.2.1, unloaded.2 ++ r.2.2)

/-- `PluginManager._handle_file_change` (lines 97-108): reload a registered
plugin, or load an unregistered one under its directory name. -/
def handleFileChange (st : ManagerState) (fileExists : Bool) (src : SourceUnit)
    (pluginName : String) : Bool × ManagerState × List String :=
  if dictContains st.plugins pluginName then
    reloadPlugin st fileExists src pluginName
  else
    loadPluginFromFile st src pluginName

/-- `PluginManager._handle_file_deletion` (lines 110-116). -/
def handleFileDeletion (st : ManagerState) (pluginName : String) :
    ManagerState × List String :=
  if dictContains st.plugins pluginName then
    let r := unloadPlugin st pluginName
    (r.2.1, r.2.2)
  else
    (st, [])

/-- `PluginManager.enable_plugin` (lines 244-250): in-place mutation of the
stored descriptor's `enabled` field. -/
def enablePlugin (st : ManagerState) (pluginName : String) : Bool × ManagerState :=
  if dictContains st.plugins pluginName then
    (true,
     { st with plugins :=
         st.plugins.map (fun e =>
           if e.1 == pluginName then (e.1, { e.2 with enabled := true }) else e) })
  else
    (false, st)

/-- `PluginManager.disable_plugin` (lines 252-258). -/
def disablePlugin (st : ManagerState) (pluginName : String) : Bool × ManagerState :=
  if dictContains st.plugins pluginName then
    (true,
     { st with plugins :=
         st.plugins.map (fun e =>
           if e.1 == pluginName then (e.1, { e.2 with enabled := false }) else e) })
  else
    (false, st)

/-!
Hot-reload watcher (`PluginFileHandler`, src/plugins/plugin_manager.py lines
14-56). `time.time()` values are modelled in milliseconds as naturals, so the
1.0 second debounce interval is 1000. `current_time - last < debounce` uses
truncated subtraction, which agrees with the Python comparison also when the
clock value is not larger than the recorded one (both sides skip the event).
-/

/-- `self.debounce_time = 1.0` (seconds), in milliseconds. -/
def debounceTime : Nat := 1000

/-- `self.last_modified`, a dict from source path to the time of the last
event that triggered a reload. -/
structure FileHandlerState where
  lastModified : List (String × Nat)

/-- `PluginFileHandler.on_modified` (lines 23-43): directory events and paths
not ending in `plugin.py` are ignored; an event within the debounce interval
of the recorded time for its path is dropped without touching the record;
otherwise the record is updated to the event time and a reload is scheduled
(the returned flag). -/
def onModified (st : FileHandlerState) (isDirectory : Bool) (srcPath : String)
    (currentTime : Nat) : FileHandlerState × Bool :=
  if isDirectory then
    (st, false)
  else if !pyEndsWith srcPath "plugin.py" then
    (st, false)
  else
    match dictGet st.lastModified srcPath with
    | some t0 =>
      if currentTime - t0 < debounceTime then
        (st, false)
      else
        ({ lastModified := dictSet st.lastModified srcPath currentTime }, true)
    | none =>
      ({ lastModified := dictSet st.lastModified srcPath currentTime }, true)

/-- Run `on_modified` over a sequence of file-modification events
(path, time), counting how many reload attempts get scheduled. -/
def processEvents (st : FileHandlerState) :
    List (String × Nat) → FileHandlerState × Nat
  | [] => (st, 0)
  | (p, t) :: rest =>
    let r := onModified st false p t
    let r2 := processEvents r.1 rest
    (r2.1, (if r.2 then 1 else 0) + r2.2)

/-!
Message intake (src/boo_bot.py). `DebugMatrixBot.text_message_callback`
(lines 582-622) decides whether a body is a command addressed to the bot and
picks the text to process; `DebugMatrixBot.handle_bot_command` (lines 870-1060)
matches that text against its fixed chain of patterns.
-/

/-- Lines 584-589: Matrix edits are prefixed with `"* "`, stripped before matching. -/
def stripEditMarker (body : String) : String :=
  if pyStartsWith body "* " then pyStrip (pyDropChars body 2) else body

/-- Line 593: `expected_prefix = f"(display_name.lower()):"`. -/
def cmdMarker (displayName : String) : String := pyLower displayName ++ ":"

/-- Lines 596-613: the body is a command when its cleaned or original form,
lowercased and stripped, starts with the marker; the matching (uncleaned,
case-preserving) text is what gets processed. -/
def commandToProcess (displayName body : String) : Option String :=
  let cleanedMessage := stripEditMarker body
  let marker := cmdMarker displayName
  if pyStartsWith (pyStrip (pyLower cleanedMessage)) marker then
    some cleanedMessage
  else if pyStartsWith (pyStrip (pyLower body)) marker then
    some body
  else
    none

/-- `matches_command` (lines 890-892): the lowered command equals
`f"(marker) (pattern)".strip()` or extends it by a space. -/
def matchesCommand (marker commandLower pat : String) : Bool :=
  let expected := pyStrip (marker ++ " " ++ pat)
  commandLower == expected || pyStartsWith commandLower (expected ++ " ")

/-- `matches_exact` (lines 894-896). -/
def matchesExact (marker commandLower pat : String) : Bool :=
  commandLower == pyStrip (marker ++ " " ++ pat)

/-- The `if`/`elif` chain of `handle_bot_command` (lines 898-1055), reduced to
the label of the handler branch that fires; `"unknown"` is the final `else`
branch that sends the unknown-command reply. -/
def recognizedCommand (displayName command : String) : String :=
  let marker := cmdMarker displayName
  let cl := pyLower command
  if matchesExact marker cl "debug" then "debug"
  else if matchesExact marker cl "talk" then "talk"
  else if matchesExact marker cl "help" then "help"
  else if matchesExact marker cl "ping" then "ping"
  else if matchesExact marker cl "room" then "room"
  else if matchesExact marker cl "db health" then "db health"
  else if matchesExact marker cl "db stats" then "db stats"
  else if matchesCommand marker cl "8" then "8"
  else if matchesExact marker cl "bible" then "bible"
  else if matchesExact marker cl "bible song" then "bible song"
  else if matchesCommand marker cl "advise" || matchesCommand marker cl "advice" then "advice"
  else if matchesCommand marker cl "summary" then "summary"
  else if matchesCommand marker cl "subs" then "subs"
  else if matchesCommand marker cl "ask" then "ask"
  else if matchesExact marker cl "videos" then "videos"
  else if matchesExact marker cl "refresh name" || matchesExact marker cl "update name" then "refresh name"
  else "unknown"

/-- Full intake pipeline: `none` when the body is not addressed to the bot,
otherwise the label of the handler branch `handle_bot_command` runs. -/
def parseIncoming (displayName body : String) : Option String :=
  (commandToProcess displayName body).map (recognizedCommand displayName)

/-!
Operation sequences over the registry state, for the cross-operation
invariant claims: the entry points that mutate `plugins`/`failed` during
live operation (watcher file-change and file-deletion events — a file-change
covers both the discovery-style load of an unregistered directory and the
reload of a registered one — and the enable/disable toggles).
-/

/-- The source-unit conditions under which `load_plugin_from_file` takes one
of its failure paths before ever touching `self.plugins`: module execution
failing, no `BotPlugin` subclass, or `initialize` failing. -/
def sourceLoadFails (src : SourceUnit) : Bool :=
  !src.execOk ||
    (match src.classes with
     | [] => true
     | cls :: _ => !cls.initOk)

/-- One registry-mutating operation. -/
inductive PMOp where
  | fileChange (dir : String) (fileExists : Bool) (src : SourceUnit)
  | fileDelete (dir : String)
  | enable (name : String)
  | disable (name : String)

/-- Effect of one operation on the registry state. -/
def applyOp (st : ManagerState) : PMOp → ManagerState
  | .fileChange d fe src => (handleFileChange st fe src d).2.1
  | .fileDelete d => (handleFileDeletion st d).1
  | .enable n => (enablePlugin st n).2
  | .disable n => (disablePlugin st n).2

/-- Effect of a sequence of operations. -/
def runOps (st : ManagerState) (ops : List PMOp) : ManagerState :=
  ops.foldl applyOp st

/-- The keys of a dict, in insertion order. -/
def dictKeys {α : Type} (m : List (String × α)) : List String :=
  m.map (fun e => e.1)

/-- The disjointness invariant of the claim, strengthened (so that it is
inductive) with the fact that no registered plugin is keyed by the file stem
`"plugin"` that `reload_plugin` uses as its failure key. -/
def stateInv (st : ManagerState) : Prop :=
  (∀ k ∈ dictKeys st.plugins, k ∉ dictKeys st.failed) ∧
  pluginFileStem ∉ dictKeys st.plugins

/-- A well-behaved source unit for directory `d`: every candidate class
self-declares the directory name, and the directory is not named after the
file stem `"plugin"`. -/
def goodSrc (d : String) (src : SourceUnit) : Prop :=
  d ≠ pluginFileStem ∧ ∀ cls ∈ src.classes, cls.pluginName = d

/-- A well-behaved operation. -/
def goodOp : PMOp → Prop
  | .fileChange d _ src => goodSrc d src
  | _ => True

/-!
Concrete sample descriptors, source units and states used by the closed
evaluation theorems below.
-/

/-- A plugin answering `ping` with a fixed reply. -/
def pingA : BotPlugin :=
  { name := "pingA", enabled := true, commands := ["ping"]
    handle := fun _ _ _ _ => .ok (some "Pong from A"), cleanupOk := true }

/-- A second plugin also claiming `ping`. -/
def pingB : BotPlugin :=
  { name := "pingB", enabled := true, commands := ["ping"]
    handle := fun _ _ _ _ => .ok (some "Pong from B"), cleanupOk := true }

/-- A plugin whose handler raises on every invocation. -/
def boomPlugin : BotPlugin :=
  { name := "boom", enabled := true, commands := ["ping"]
    handle := fun _ _ _ _ => .error (), cleanupOk := true }

/-- A plugin whose handler completes normally but returns `None`. -/
def nonePlugin : BotPlugin :=
  { name := "quiet", enabled := true, commands := ["ping"]
    handle := fun _ _ _ _ => .ok none, cleanupOk := true }

/-- A plugin whose handler returns the empty string (not `None`). -/
def emptyReplyPlugin : BotPlugin :=
  { name := "empty", enabled := true, commands := ["ping"]
    handle := fun _ _ _ _ => .ok (some ""), cleanupOk := true }

/-- A plugin named `foo` answering `hello`. -/
def fooPlugin : BotPlugin :=
  { name := "foo", enabled := true, commands := ["hello"]
    handle := fun _ _ _ _ => .ok (some "hi"), cleanupOk := true }

/-- A registry state holding only `fooPlugin` under its own name. -/
def stFoo : ManagerState := { plugins := [("foo", fooPlugin)], failed := [] }

/-- A class whose `initialize` fails. -/
def clsInitFail : PluginClass :=
  { pluginName := "foo", commands := ["hello"]
    handle := fun _ _ _ _ => .ok (some "hi"), initOk := false, cleanupOk := true }

/-- A source unit whose only candidate class fails to initialize. -/
def srcInitFail : SourceUnit := { execOk := true, classes := [clsInitFail] }

/-- First of two candidate classes in one source unit. -/
def clsAlpha1 : PluginClass :=
  { pluginName := "alpha1", commands := ["a1"]
    handle := fun _ _ _ _ => .ok (some "one"), initOk := true, cleanupOk := true }

/-- Second of two candidate classes in one source unit. -/
def clsAlpha2 : PluginClass :=
  { pluginName := "alpha2", commands := ["a2"]
    handle := fun _ _ _ _ => .ok (some "two"), initOk := true, cleanupOk := true }

/-- A source unit containing two candidate contract-implementing classes. -/
def srcTwoClasses : SourceUnit := { execOk := true, classes := [clsAlpha1, clsAlpha2] }

/-- A class that self-declares the name `beta` (to be placed in directory `alpha`). -/
def clsSelfBeta : PluginClass :=
  { pluginName := "beta", commands := ["b"]
    handle := fun _ _ _ _ => .ok (some "bee"), initOk := true, cleanupOk := true }

/-- The source unit of directory `alpha`, self-declaring the name `beta`. -/
def srcSelfBeta : SourceUnit := { execOk := true, classes := [clsSelfBeta] }

/-- A source unit whose module fails to execute. -/
def srcBroken : SourceUnit := { execOk := false, classes := [] }


/-!
General lemmas about the dict model.
-/

/-- The entry update applied by `dictSet` when the key is already present. -/
def setEntry {α : Type} (k : String) (v : α) (x : String × α) : String × α :=
  if x.1 = k then (k, v) else x

theorem dictGet_cons {α : Type} (e : String × α) (m : List (String × α)) (k : String) :
    dictGet (e :: m) k = if e.1 = k then some e.2 else dictGet m k := by
  by_cases h : e.1 = k
  · have hb : (e.1 == k) = true := beq_iff_eq.mpr h
    simp [dictGet, List.find?, hb, h]
  · have hb : (e.1 == k) = false := beq_eq_false_iff_ne.mpr h
    simp [dictGet, List.find?, hb, h]

theorem dictSet_cons {α : Type} (e : String × α) (m : List (String × α)) (k : String) (v : α) :
    dictSet (e :: m) k v =
      if e.1 = k then (k, v) :: m.map (setEntry k v)
      else e :: dictSet m k v := by
  have hcongr : ∀ l : List (String × α),
      l.map (fun x => if x.1 == k then (k, v) else x) = l.map (setEntry k v) :=
    fun l => List.map_congr_left (fun x _ => by
      by_cases hx : x.1 = k
      · simp [setEntry, hx]
      · simp [setEntry, hx, beq_eq_false_iff_ne.mpr hx])
  by_cases he : e.1 = k
  · have hb : (e.1 == k) = true := beq_iff_eq.mpr he
    have hg : (e :: m).any (fun x => x.1 == k) = true := by
      simp [List.any_cons, hb]
    have h1 : dictSet (e :: m) k v
        = (e :: m).map (fun x => if x.1 == k then (k, v) else x) := by
      simp [dictSet, hg]
    rw [if_pos he, h1, hcongr, List.map_cons]
    congr 1
    simp [setEntry, he]
  · have hb : (e.1 == k) = false := beq_eq_false_iff_ne.mpr he
    rw [if_neg he]
    by_cases hm : m.any (fun x => x.1 == k)
    · have hg : (e :: m).any (fun x => x.1 == k) = true := by
        simp [List.any_cons, hm]
      have h1 : dictSet (e :: m) k v
          = (e :: m).map (fun x => if x.1 == k then (k, v) else x) := by
        simp [dictSet, hg]
      have h3 : dictSet m k v = m.map (fun x => if x.1 == k then (k, v) else x) := by
        simp [dictSet, hm]
      rw [h1, List.map_cons, h3]
      congr 1
      simp [hb]
    · have hg : (e :: m).any (fun x => x.1 == k) = false := by
        simp [List.any_cons, hb, hm]
      have h1 : dictSet (e :: m) k v = (e :: m) ++ [(k, v)] := by
        simp [dictSet, hg]
      have h3 : dictSet m k v = m ++ [(k, v)] := by
        simp [dictSet, hm]
      rw [h1, h3]
      simp

theorem dictGet_mapSet_ne {α : Type} (m : List (String × α)) (k k' : String) (v : α)
    (h : k' ≠ k) :
    dictGet (m.map (setEntry k v)) k' = dictGet m k' := by
  induction m with
  | nil => simp [dictGet]
  | cons e m ih =>
    rw [List.map_cons, dictGet_cons, dictGet_cons]
    by_cases he : e.1 = k
    · have h1 : (setEntry k v e).1 = k := by simp [setEntry, he]
      have h2 : ¬((setEntry k v e).1 = k') := by
        rw [h1]; exact fun hk => h hk.symm
      have h3 : ¬(e.1 = k') := by
        rw [he]; exact fun hk => h hk.symm
      rw [if_neg h2, if_neg h3]; exact ih
    · have h1 : setEntry k v e = e := by simp [setEntry, he]
      rw [h1]
      by_cases hek : e.1 = k'
      · rw [if_pos hek, if_pos hek]
      · rw [if_neg hek, if_neg hek]; exact ih

theorem dictGet_dictSet_self {α : Type} (m : List (String × α)) (k : String) (v : α) :
    dictGet (dictSet m k v) k = some v := by
  induction m with
  | nil => simp [dictSet, dictGet, List.find?]
  | cons e m ih =>
    rw [dictSet_cons]
    by_cases he : e.1 = k
    · rw [if_pos he, dictGet_cons]
      simp
    · rw [if_neg he, dictGet_cons, if_neg he]
      exact ih

theorem dictGet_dictSet_ne {α : Type} (m : List (String × α)) (k k' : String) (v : α)
    (h : k' ≠ k) : dictGet (dictSet m k v) k' = dictGet m k' := by
  have hkn : ¬(k = k') := fun hk => h hk.symm
  induction m with
  | nil =>
    simp only [dictSet, List.any_nil, if_neg Bool.false_ne_true, List.nil_append]
    rw [dictGet_cons]
    simp [dictGet, hkn]
  | cons e m ih =>
    rw [dictSet_cons]
    by_cases he : e.1 = k
    · have hek2 : ¬(e.1 = k') := by
        rw [he]; exact hkn
      rw [if_pos he, dictGet_cons, dictGet_cons, if_neg hek2]
      simp only [if_neg hkn]
      exact dictGet_mapSet_ne m k k' v h
    · rw [if_neg he, dictGet_cons, dictGet_cons]
      by_cases hek : e.1 = k'
      · rw [if_pos hek, if_pos hek]
      · rw [if_neg hek, if_neg hek]; exact ih

theorem dictContains_iff {α : Type} (m : List (String × α)) (k : String) :
    dictContains m k = true ↔ k ∈ dictKeys m := by
  simp only [dictContains, dictKeys, List.any_eq_true, List.mem_map, beq_iff_eq]

theorem dictContains_false_iff {α : Type} (m : List (String × α)) (k : String) :
    dictContains m k = false ↔ k ∉ dictKeys m := by
  constructor
  · intro h hk
    have h2 := (dictContains_iff m k).mpr hk
    rw [h] at h2
    cases h2
  · intro h
    by_cases hc : dictContains m k = true
    · exact absurd ((dictContains_iff m k).mp hc) h
    · simpa using hc

theorem dictKeys_dictSet {α : Type} (m : List (String × α)) (k : String) (v : α) :
    dictKeys (dictSet m k v) =
      if dictContains m k then dictKeys m else dictKeys m ++ [k] := by
  by_cases hg : m.any (fun e => e.1 == k)
  · have h1 : dictSet m k v = m.map (fun x => if x.1 == k then (k, v) else x) := by
      simp [dictSet, hg]
    have h2 : dictKeys (m.map (fun x => if x.1 == k then (k, v) else x)) = dictKeys m := by
      simp only [dictKeys, List.map_map]
      apply List.map_congr_left
      intro x _
      by_cases hx : x.1 = k
      · simp [Function.comp, hx]
      · simp [Function.comp, hx, beq_eq_false_iff_ne.mpr hx]
    have hc : dictContains m k = true := hg
    rw [h1, h2, hc]
    simp
  · have h1 : dictSet m k v = m ++ [(k, v)] := by
      simp [dictSet, hg]
    have hc : dictContains m k = false := Bool.eq_false_iff.mpr hg
    rw [h1, hc]
    simp [dictKeys]

theorem mem_dictKeys_dictSet {α : Type} (m : List (String × α)) (k : String) (v : α)
    (k' : String) :
    k' ∈ dictKeys (dictSet m k v) ↔ k' ∈ dictKeys m ∨ k' = k := by
  rw [dictKeys_dictSet]
  by_cases h : dictContains m k
  · rw [if_pos h]
    constructor
    · exact Or.inl
    · rintro (hk | rfl)
      · exact hk
      · exact (dictContains_iff m k').mp h
  · rw [if_neg h]
    simp

theorem dictKeys_dictPop {α : Type} (m : List (String × α)) (k : String) :
    dictKeys (dictPop m k) = (dictKeys m).filter (fun x => x != k) := by
  induction m with
  | nil => rfl
  | cons e m ih =>
    by_cases he : e.1 != k
    · simp only [dictPop, dictKeys, List.filter_cons, he, List.map_cons] at *
      simp [he, ih]
    · simp only [dictPop, dictKeys, List.filter_cons, he, List.map_cons] at *
      simp [he, ih]

theorem mem_dictKeys_dictPop {α : Type} (m : List (String × α)) (k k' : String) :
    k' ∈ dictKeys (dictPop m k) ↔ k' ∈ dictKeys m ∧ k' ≠ k := by
  rw [dictKeys_dictPop]
  simp [List.mem_filter, bne_iff_ne]

theorem dictKeys_mapAt {α : Type} (m : List (String × α)) (n : String) (g : α → α) :
    dictKeys (m.map (fun e => if e.1 == n then (e.1, g e.2) else e)) = dictKeys m := by
  simp only [dictKeys, List.map_map]
  apply List.map_congr_left
  intro x _
  by_cases hx : x.1 = n
  · simp [Function.comp, beq_iff_eq.mpr hx]
  · simp [Function.comp, beq_eq_false_iff_ne.mpr hx]

theorem dictGet_mapAt_self {α : Type} (m : List (String × α)) (n : String) (g : α → α)
    (p : α) (h : dictGet m n = some p) :
    dictGet (m.map (fun e => if e.1 == n then (e.1, g e.2) else e)) n = some (g p) := by
  induction m with
  | nil => simp [dictGet] at h
  | cons e m ih =>
    rw [dictGet_cons] at h
    by_cases he : e.1 = n
    · rw [if_pos he] at h
      have hp : e.2 = p := Option.some_injective _ h
      rw [List.map_cons, if_pos (beq_iff_eq.mpr he), dictGet_cons, if_pos he, hp]
    · rw [if_neg he] at h
      rw [List.map_cons, if_neg (by simpa [beq_eq_false_iff_ne] using he), dictGet_cons,
        if_neg he]
      exact ih h

theorem dictGet_mapAt_ne {α : Type} (m : List (String × α)) (n : String) (g : α → α)
    (k : String) (h : k ≠ n) :
    dictGet (m.map (fun e => if e.1 == n then (e.1, g e.2) else e)) k = dictGet m k := by
  induction m with
  | nil => simp [dictGet]
  | cons e m ih =>
    by_cases he : e.1 = n
    · have hek : ¬(e.1 = k) := by
        rw [he]; exact fun hk => h hk.symm
      rw [List.map_cons, if_pos (beq_iff_eq.mpr he), dictGet_cons, dictGet_cons]
      simpa [hek] using ih
    · rw [List.map_cons, if_neg (by simpa [beq_eq_false_iff_ne] using he), dictGet_cons,
        dictGet_cons]
      by_cases hek : e.1 = k
      · rw [if_pos hek, if_pos hek]
      · rw [if_neg hek, if_neg hek]
        exact ih

theorem dictGet_some_mem_dictKeys {α : Type} (m : List (String × α)) (k : String) (p : α)
    (h : dictGet m k = some p) : k ∈ dictKeys m := by
  induction m with
  | nil => simp [dictGet] at h
  | cons e m ih =>
    rw [dictGet_cons] at h
    by_cases he : e.1 = k
    · simp [dictKeys, he]
    · rw [if_neg he] at h
      simp only [dictKeys, List.map_cons, List.mem_cons]
      exact Or.inr (ih h)

theorem dictGet_none_of_not_mem {α : Type} (m : List (String × α)) (k : String)
    (h : k ∉ dictKeys m) : dictGet m k = none := by
  induction m with
  | nil => rfl
  | cons e m ih =>
    rw [dictGet_cons]
    simp only [dictKeys, List.map_cons, List.mem_cons] at h
    push_neg at h
    rw [if_neg (fun he => h.1 he.symm)]
    exact ih h.2

theorem dictContains_eq_true_of_dictGet {α : Type} (m : List (String × α)) (k : String)
    (p : α) (h : dictGet m k = some p) : dictContains m k = true :=
  (dictContains_iff m k).mpr (dictGet_some_mem_dictKeys m k p h)

theorem dictGet_some_of_dictContains {α : Type} (m : List (String × α)) (k : String)
    (h : dictContains m k = true) : ∃ p, dictGet m k = some p := by
  induction m with
  | nil => simp [dictContains] at h
  | cons e m ih =>
    rw [dictGet_cons]
    by_cases he : e.1 = k
    · exact ⟨e.2, by rw [if_pos he]⟩
    · rw [if_neg he]
      apply ih
      simpa [dictContains, List.any_cons, beq_eq_false_iff_ne.mpr he] using h

/-!
Lemmas about the dispatcher and the command table.
-/

theorem handleCommand_append_skip (l₁ l₂ : List BotPlugin) (c a room user : String)
    (h : ∀ q ∈ l₁, (q.enabled && q.canHandle c) = false) :
    handleCommand (l₁ ++ l₂) c a room user = handleCommand l₂ c a room user := by
  induction l₁ with
  | nil => rfl
  | cons q l₁ ih =>
    have hq := h q (List.mem_cons_self q l₁)
    rw [List.cons_append]
    simp only [handleCommand, hq, Bool.false_eq_true, if_false]
    exact ih (fun x hx => h x (List.mem_cons_of_mem q hx))

theorem handleCommand_all_skip (l : List BotPlugin) (c a room user : String)
    (h : ∀ q ∈ l, (q.enabled && q.canHandle c) = false) :
    handleCommand l c a room user = none := by
  have := handleCommand_append_skip l [] c a room user h
  simpa using this

theorem dictGet_addCmds (acc : List (String × String)) (p : BotPlugin) (c : String) :
    dictGet (addCmds acc p) c =
      if p.commands.contains c then some p.name else dictGet acc c := by
  have key : ∀ (l : List String) (acc : List (String × String)),
      dictGet (l.foldl (fun a cmd => dictSet a cmd p.name) acc) c =
        if l.contains c then some p.name else dictGet acc c := by
    intro l
    induction l with
    | nil => intro acc; simp
    | cons cmd rest ih =>
      intro acc
      rw [List.foldl_cons, ih]
      by_cases hc : rest.contains c
      · have hmem : c ∈ rest := by simpa using hc
        simp [List.contains_cons, hc, hmem]
      · have hnm : c ∉ rest := by simpa using hc
        by_cases hcc : c = cmd
        · subst hcc
          simp [List.contains_cons, hc, hnm, dictGet_dictSet_self]
        · simp [List.contains_cons, hc, hnm, hcc,
            dictGet_dictSet_ne acc cmd c p.name hcc]
  exact key p.commands acc

theorem getAllCommandsAux_append (acc : List (String × String)) (l₁ l₂ : List BotPlugin) :
    getAllCommandsAux acc (l₁ ++ l₂) = getAllCommandsAux (getAllCommandsAux acc l₁) l₂ := by
  induction l₁ generalizing acc with
  | nil => rfl
  | cons p l₁ ih =>
    rw [List.cons_append]
    simp only [getAllCommandsAux]
    exact ih _

theorem dictGet_getAllCommandsAux_skip (acc : List (String × String)) (l : List BotPlugin)
    (c : String) (h : ∀ q ∈ l, q.enabled = true → q.commands.contains c = false) :
    dictGet (getAllCommandsAux acc l) c = dictGet acc c := by
  induction l generalizing acc with
  | nil => rfl
  | cons p l ih =>
    simp only [getAllCommandsAux]
    by_cases hp : p.enabled
    · rw [if_pos hp, ih _ (fun x hx => h x (List.mem_cons_of_mem p hx)), dictGet_addCmds]
      rw [h p (List.mem_cons_self p l) hp]
      simp
    · rw [if_neg hp]
      exact ih _ (fun x hx => h x (List.mem_cons_of_mem p hx))

theorem dictGet_getAllCommands_none (l : List BotPlugin) (c : String)
    (h : ∀ q ∈ l, q.enabled = true → q.commands.contains c = false) :
    dictGet (getAllCommands l) c = none := by
  rw [getAllCommands, dictGet_getAllCommandsAux_skip [] l c h]
  rfl

theorem claimersSkip (l : List BotPlugin) (c : String)
    (h : ∀ x ∈ l, x.enabled = true → x.commands.contains c = false) :
    ∀ x ∈ l, (x.enabled && x.canHandle c) = false := by
  intro x hx
  by_cases he : x.enabled = true
  · have hm : c ∉ x.commands := by simpa using h x hx he
    simp [he, BotPlugin.canHandle, hm]
  · simp [Bool.eq_false_iff.mpr he]

/-- C2: if an enabled plugin that claims command `c` raises from its handler,
the dispatcher never propagates the exception: the dispatch result is exactly
that of the registry with the raising plugin removed, i.e. the result of a
later matching plugin or `none`. -/
theorem claim_c2_dispatch_isolation (l₁ l₂ : List BotPlugin) (p : BotPlugin)
    (c a room user : String)
    (hen : p.enabled = true) (hch : p.canHandle c = true)
    (hraise : p.handle c a room user = .error ()) :
    handleCommand (l₁ ++ p :: l₂) c a room user = handleCommand (l₁ ++ l₂) c a room user := by
  induction l₁ with
  | nil =>
    simp only [List.nil_append]
    simp [handleCommand, hen, hch, hraise]
  | cons q l₁ ih =>
    simp only [List.cons_append, handleCommand]
    by_cases hq : (q.enabled && q.canHandle c) = true
    · rw [if_pos hq, if_pos hq]
      cases hr : q.handle c a room user with
      | ok o =>
        cases o with
        | some r => rfl
        | none => exact ih
      | error e => exact ih
    · rw [if_neg hq, if_neg hq]
      exact ih

/-- Witness for C2: a raising plugin followed by a working one; the dispatch
skips the raising plugin and returns the later plugin's reply. -/
theorem claim_c2_witness :
    handleCommand [boomPlugin, pingB] "ping" "" "room" "user"
        = handleCommand [pingB] "ping" "" "room" "user"
      ∧ handleCommand [boomPlugin, pingB] "ping" "" "room" "user" = some "Pong from B" := by
  constructor
  · exact claim_c2_dispatch_isolation [] [pingB] boomPlugin "ping" "" "room" "user"
      rfl (by decide) rfl
  · decide

/-- C10: a `None` result from an enabled matching plugin makes the dispatcher
continue with the remaining plugins, while any non-`None` result — including
the empty string — is returned verbatim and ends the dispatch. -/
theorem claim_c10_none_continues_result_verbatim (p : BotPlugin) (l : List BotPlugin)
    (c a room user : String) (hen : p.enabled = true) (hch : p.canHandle c = true) :
    (p.handle c a room user = .ok none →
       handleCommand (p :: l) c a room user = handleCommand l c a room user) ∧
    (∀ s, p.handle c a room user = .ok (some s) →
       handleCommand (p :: l) c a room user = some s) := by
  constructor
  · intro hn
    simp [handleCommand, hen, hch, hn]
  · intro s hs
    simp [handleCommand, hen, hch, hs]

/-- Witness for C10: a `None`-returning plugin lets the next plugin answer,
and an empty-string reply is returned as the dispatch answer. -/
theorem claim_c10_witness :
    handleCommand [nonePlugin, pingB] "ping" "" "r" "u"
        = handleCommand [pingB] "ping" "" "r" "u"
      ∧ handleCommand [emptyReplyPlugin, pingB] "ping" "" "r" "u" = some "" := by
  constructor
  · exact (claim_c10_none_continues_result_verbatim nonePlugin [pingB] "ping" "" "r" "u"
      rfl (by decide)).1 rfl
  · exact (claim_c10_none_continues_result_verbatim emptyReplyPlugin [pingB] "ping" "" "r" "u"
      rfl (by decide)).2 "" rfl

/-- C5: with two enabled plugins `p` (registered earlier) and `q` (registered
later) both claiming command `c`, `get_all_commands` maps `c` to the
later-registered plugin's name (last-write-wins), while dispatch invokes the
first-registered matching plugin and deterministically returns its reply. -/
theorem claim_c5_tie_break (l₁ l₂ l₃ : List BotPlugin) (p q : BotPlugin)
    (c a room user : String)
    (hpe : p.enabled = true) (hpc : p.commands.contains c = true)
    (hqe : q.enabled = true) (hqc : q.commands.contains c = true)
    (h1 : ∀ x ∈ l₁, x.enabled = true → x.commands.contains c = false)
    (h3 : ∀ x ∈ l₃, x.enabled = true → x.commands.contains c = false) :
    dictGet (getAllCommands (l₁ ++ (p :: (l₂ ++ (q :: l₃))))) c = some q.name ∧
    (∀ s, p.handle c a room user = .ok (some s) →
       handleCommand (l₁ ++ (p :: (l₂ ++ (q :: l₃)))) c a room user = some s) := by
  constructor
  · rw [getAllCommands, getAllCommandsAux_append]
    simp only [getAllCommandsAux, hpe, if_true]
    rw [getAllCommandsAux_append]
    simp only [getAllCommandsAux, hqe, if_true]
    rw [dictGet_getAllCommandsAux_skip _ l₃ c h3, dictGet_addCmds]
    have hqm : c ∈ q.commands := by simpa using hqc
    simp [hqm]
  · intro s hs
    rw [handleCommand_append_skip l₁ _ c a room user (claimersSkip l₁ c h1)]
    have hpm : c ∈ p.commands := by simpa using hpc
    simp [handleCommand, BotPlugin.canHandle, hpe, hpm, hs]

/-- Witness for C5: `pingA` registered before `pingB`, both claiming `ping`;
the command table names `pingB`, dispatch answers with `pingA`'s reply. -/
theorem claim_c5_witness :
    dictGet (getAllCommands [pingA, pingB]) "ping" = some "pingB"
      ∧ handleCommand [pingA, pingB] "ping" "" "r" "u" = some "Pong from A" := by
  have h := claim_c5_tie_break [] [] [] pingA pingB "ping" "" "r" "u"
    rfl (by decide) rfl (by decide)
    (fun x hx => absurd hx (List.not_mem_nil x))
    (fun x hx => absurd hx (List.not_mem_nil x))
  exact ⟨h.1, h.2 "Pong from A" rfl⟩

theorem dictValues_mapAt_claimless (m : List (String × BotPlugin)) (name c : String)
    (h : ∀ e ∈ m, e.1 ≠ name → e.2.enabled = true → e.2.commands.contains c = false) :
    ∀ pl ∈ dictValues (m.map (fun e =>
        if e.1 == name then (e.1, { e.2 with enabled := false }) else e)),
      pl.enabled = true → pl.commands.contains c = false := by
  intro pl hpl
  simp only [dictValues, List.map_map, List.mem_map] at hpl
  obtain ⟨e, he, rfl⟩ := hpl
  by_cases hen : e.1 = name
  · simp [Function.comp, beq_iff_eq.mpr hen]
  · have hb : (e.1 == name) = false := beq_eq_false_iff_ne.mpr hen
    simp only [Function.comp, hb, Bool.false_eq_true, if_false]
    exact h e he hen

/-- C8: `disable_plugin` returns whether the name is loaded; on a loaded name
it flips only that descriptor's `enabled` flag in place (failed map, key set
and every other entry unchanged); afterwards, if no other enabled plugin
claims one of its commands `c`, the command table no longer lists `c` and
dispatching `c` returns nothing, while the descriptor itself is still present
(disabled) in the plugins map. -/
theorem claim_c8_disable_frame (st : ManagerState) (name : String) :
    ((disablePlugin st name).1 = dictContains st.plugins name) ∧
    (dictContains st.plugins name = false → (disablePlugin st name).2 = st) ∧
    (∀ p, dictGet st.plugins name = some p →
      ((disablePlugin st name).2.failed = st.failed) ∧
      (dictKeys (disablePlugin st name).2.plugins = dictKeys st.plugins) ∧
      (dictGet (disablePlugin st name).2.plugins name = some { p with enabled := false }) ∧
      (∀ k, k ≠ name → dictGet (disablePlugin st name).2.plugins k = dictGet st.plugins k) ∧
      (∀ c a room user, p.commands.contains c = true →
        (∀ e ∈ st.plugins, e.1 ≠ name → e.2.enabled = true →
           e.2.commands.contains c = false) →
        dictGet (getAllCommands (dictValues (disablePlugin st name).2.plugins)) c = none ∧
        handleCommand (dictValues (disablePlugin st name).2.plugins) c a room user = none)) := by
  refine ⟨?_, ?_, ?_⟩
  · by_cases h : dictContains st.plugins name <;> simp [disablePlugin, h]
  · intro h
    simp [disablePlugin, h]
  · intro p hp
    have hc : dictContains st.plugins name = true :=
      dictContains_eq_true_of_dictGet st.plugins name p hp
    have hst : (disablePlugin st name).2.plugins
        = st.plugins.map (fun e =>
            if e.1 == name then (e.1, { e.2 with enabled := false }) else e) := by
      simp [disablePlugin, hc]
    have hfl : (disablePlugin st name).2.failed = st.failed := by
      simp [disablePlugin, hc]
    refine ⟨hfl, ?_, ?_, ?_, ?_⟩
    · rw [hst]
      exact dictKeys_mapAt st.plugins name (fun x => { x with enabled := false })
    · rw [hst]
      exact dictGet_mapAt_self st.plugins name (fun x => { x with enabled := false }) p hp
    · intro k hk
      rw [hst]
      exact dictGet_mapAt_ne st.plugins name (fun x => { x with enabled := false }) k hk
    · intro c a room user _ hothers
      have hcl := dictValues_mapAt_claimless st.plugins name c hothers
      rw [hst]
      constructor
      · exact dictGet_getAllCommands_none _ c hcl
      · exact handleCommand_all_skip _ c a room user (claimersSkip _ c hcl)

/-- Witness for C8: disabling `foo` in a one-plugin registry returns `true`,
keeps the descriptor (disabled), and removes its command from table and
dispatch. -/
theorem claim_c8_witness :
    (disablePlugin stFoo "foo").1 = true
      ∧ dictGet (disablePlugin stFoo "foo").2.plugins "foo"
          = some { fooPlugin with enabled := false }
      ∧ dictGet (getAllCommands (dictValues (disablePlugin stFoo "foo").2.plugins)) "hello"
          = none
      ∧ handleCommand (dictValues (disablePlugin stFoo "foo").2.plugins) "hello" "" "r" "u"
          = none := by
  have h := claim_c8_disable_frame stFoo "foo"
  have h3 := h.2.2 fooPlugin rfl
  have h5 := h3.2.2.2.2 "hello" "" "r" "u" (by decide)
    (by
      intro e he hne
      simp only [stFoo, List.mem_singleton] at he
      subst he
      exact absurd rfl hne)
  exact ⟨h.1.trans (by decide), h3.2.2.1, h5.1, h5.2⟩

theorem dictContains_dictPop_self {α : Type} (m : List (String × α)) (k : String) :
    dictContains (dictPop m k) k = false := by
  rw [dictContains_false_iff, mem_dictKeys_dictPop]
  simp

theorem dictContains_dictSet_self {α : Type} (m : List (String × α)) (k : String) (v : α) :
    dictContains (dictSet m k v) k = true :=
  (dictContains_iff _ _).mpr ((mem_dictKeys_dictSet m k v k).mpr (Or.inr rfl))

theorem unload_absent (st : ManagerState) (name : String)
    (h : dictGet st.plugins name = none) : unloadPlugin st name = (false, st, []) := by
  simp [unloadPlugin, h]

theorem unload_cleanup_ok (st : ManagerState) (name : String) (p : BotPlugin)
    (h : dictGet st.plugins name = some p) (hc : p.cleanupOk = true) :
    unloadPlugin st name
      = (true, { st with plugins := dictPop st.plugins name }, [p.name]) := by
  simp [unloadPlugin, h, hc]

theorem unload_cleanup_raises (st : ManagerState) (name : String) (p : BotPlugin)
    (h : dictGet st.plugins name = some p) (hc : p.cleanupOk = false) :
    unloadPlugin st name = (false, st, [p.name]) := by
  simp [unloadPlugin, h, hc]

theorem loadFail_state (st : ManagerState) (src : SourceUnit) (n : String)
    (h : sourceLoadFails src = true) :
    (loadPluginFromFile st src n).1 = false
      ∧ (loadPluginFromFile st src n).2.1.plugins = st.plugins
      ∧ dictContains (loadPluginFromFile st src n).2.1.failed n = true := by
  by_cases he : src.execOk
  · cases hcl : src.classes with
    | nil =>
      simp [loadPluginFromFile, he, hcl, dictContains_dictSet_self]
    | cons cls rest =>
      have hini : cls.initOk = false := by
        rw [sourceLoadFails, hcl] at h
        simpa [he] using h
      simp [loadPluginFromFile, he, hcl, hini, dictContains_dictSet_self]
  · have he' : src.execOk = false := Bool.eq_false_iff.mpr he
    simp [loadPluginFromFile, he', dictContains_dictSet_self]

/-- Counterexample to C9 as stated: unloading a registered plugin does invoke
its `cleanup` hook (the trace of invoked hooks is non-empty). -/
theorem claim_c9_cex :
    (unloadPlugin stFoo "foo").1 = true
      ∧ (unloadPlugin stFoo "foo").2.2 = ["foo"] := by
  decide

/-- C9 amended: `unload_plugin` returns `False` untouched on an absent name;
on a present name it always invokes the plugin's `cleanup` hook — when
`cleanup` completes it deletes the entry and returns `True`, and when
`cleanup` raises it returns `False` with the entry still registered. -/
theorem claim_c9_unload_behavior (st : ManagerState) (name : String) :
    (dictGet st.plugins name = none → unloadPlugin st name = (false, st, [])) ∧
    (∀ p, dictGet st.plugins name = some p → p.cleanupOk = true →
       unloadPlugin st name
         = (true, { st with plugins := dictPop st.plugins name }, [p.name])) ∧
    (∀ p, dictGet st.plugins name = some p → p.cleanupOk = false →
       unloadPlugin st name = (false, st, [p.name])) :=
  ⟨unload_absent st name,
   fun p hp hc => unload_cleanup_ok st name p hp hc,
   fun p hp hc => unload_cleanup_raises st name p hp hc⟩

/-- Witness for C9 amended: unloading `foo` from the one-plugin registry
succeeds, removes the entry and records the invoked `cleanup` hook. -/
theorem claim_c9_witness :
    unloadPlugin stFoo "foo"
      = (true, { stFoo with plugins := dictPop stFoo.plugins "foo" }, ["foo"]) :=
  (claim_c9_unload_behavior stFoo "foo").2.1 fooPlugin rfl rfl

/-- Counterexample to C1 as stated: `foo` is loaded and answers `hello`; a
reload whose source fails to initialize returns `False`, after which `foo` is
no longer in the plugins map and its command no longer dispatches. -/
theorem claim_c1_cex :
    dictContains stFoo.plugins "foo" = true
      ∧ handleCommand (dictValues stFoo.plugins) "hello" "" "r" "u" = some "hi"
      ∧ (reloadPlugin stFoo true srcInitFail "foo").1 = false
      ∧ dictContains (reloadPlugin stFoo true srcInitFail "foo").2.1.plugins "foo" = false
      ∧ handleCommand (dictValues (reloadPlugin stFoo true srcInitFail "foo").2.1.plugins)
          "hello" "" "r" "u" = none := by
  decide

/-- C1 amended: `reload_plugin` unloads the plugin before attempting the
load, so when the load of the new source fails (and the old descriptor's
`cleanup` completes normally), the reload returns `False` with the plugin no
longer registered, and the failure is recorded under the file-stem key
`"plugin"`. -/
theorem claim_c1_reload_failure_unregisters (st : ManagerState) (name : String)
    (p : BotPlugin) (src : SourceUnit)
    (hget : dictGet st.plugins name = some p) (hclean : p.cleanupOk = true)
    (hfail : sourceLoadFails src = true) :
    (reloadPlugin st true src name).1 = false
      ∧ dictGet (reloadPlugin st true src name).2.1.plugins name = none
      ∧ dictContains (reloadPlugin st true src name).2.1.failed pluginFileStem = true := by
  have hc : dictContains st.plugins name = true :=
    dictContains_eq_true_of_dictGet st.plugins name p hget
  have hu := unload_cleanup_ok st name p hget hclean
  have hl := loadFail_state { st with plugins := dictPop st.plugins name } src
    pluginFileStem hfail
  have hget' : dictGet (dictPop st.plugins name) name = none :=
    dictGet_none_of_not_mem _ name (by
      rw [mem_dictKeys_dictPop]
      rintro ⟨-, hne⟩
      exact hne rfl)
  refine ⟨?_, ?_, ?_⟩
  · simp only [reloadPlugin, Bool.not_true, Bool.false_eq_true, if_false, hc, if_true, hu]
    exact hl.1
  · simp only [reloadPlugin, Bool.not_true, Bool.false_eq_true, if_false, hc, if_true, hu]
    rw [hl.2.1]
    exact hget'
  · simp only [reloadPlugin, Bool.not_true, Bool.false_eq_true, if_false, hc, if_true, hu]
    exact hl.2.2

/-- Witness for C1 amended at the concrete one-plugin registry. -/
theorem claim_c1_witness :
    (reloadPlugin stFoo true srcInitFail "foo").1 = false
      ∧ dictGet (reloadPlugin stFoo true srcInitFail "foo").2.1.plugins "foo" = none
      ∧ dictContains (reloadPlugin stFoo true srcInitFail "foo").2.1.failed pluginFileStem
          = true :=
  claim_c1_reload_failure_unregisters stFoo "foo" fooPlugin srcInitFail rfl rfl (by decide)

/-- Counterexample to C3 as stated: a source unit with two candidate
contract-implementing classes loads successfully (silently picking the first
class in attribute order) instead of failing. -/
theorem claim_c3_cex :
    (loadPluginFromFile { plugins := [], failed := [] } srcTwoClasses "alphadir").1 = true
      ∧ dictContains
          (loadPluginFromFile { plugins := [], failed := [] } srcTwoClasses
            "alphadir").2.1.plugins "alpha1" = true
      ∧ dictContains
          (loadPluginFromFile { plugins := [], failed := [] } srcTwoClasses
            "alphadir").2.1.failed "alphadir" = false := by
  decide

/-- C3 amended: the loader fails (recording the plugin name in the failed map
and leaving `plugins` untouched) when the unit contains zero candidate
classes, but with one or more candidates it silently instantiates the first
one in attribute order — multiple candidates are not an error. -/
theorem claim_c3_first_candidate_wins (st : ManagerState) (src : SourceUnit)
    (name : String) :
    (src.execOk = true → src.classes = [] →
       (loadPluginFromFile st src name).1 = false
         ∧ (loadPluginFromFile st src name).2.1.plugins = st.plugins
         ∧ dictContains (loadPluginFromFile st src name).2.1.failed name = true) ∧
    (∀ cls rest, src.execOk = true → src.classes = cls :: rest → cls.initOk = true →
       dictGet st.plugins cls.pluginName = none →
       (loadPluginFromFile st src name).1 = true
         ∧ (loadPluginFromFile st src name).2.1.plugins
             = dictSet st.plugins cls.pluginName cls.instantiate
         ∧ (loadPluginFromFile st src name).2.1.failed = dictPop st.failed name) := by
  constructor
  · intro he hcl
    simp [loadPluginFromFile, he, hcl, dictContains_dictSet_self]
  · intro cls rest he hcl hini hnone
    simp [loadPluginFromFile, PluginClass.instantiate, he, hcl, hini, hnone]

/-- Witness for C3 amended: an empty unit fails; a two-candidate unit loads
with the first class. -/
theorem claim_c3_witness :
    (loadPluginFromFile { plugins := [], failed := [] }
        { execOk := true, classes := [] } "emptydir").1 = false
      ∧ (loadPluginFromFile { plugins := [], failed := [] } srcTwoClasses "alphadir").1
          = true := by
  constructor
  · exact ((claim_c3_first_candidate_wins { plugins := [], failed := [] }
      { execOk := true, classes := [] } "emptydir").1 rfl rfl).1
  · exact ((claim_c3_first_candidate_wins { plugins := [], failed := [] }
      srcTwoClasses "alphadir").2 clsAlpha1 [clsAlpha2] rfl rfl rfl rfl).1

/-- Counterexample to C6 as stated: `"boo:help"` (no space after the colon)
is recognized as addressed to the bot, but the command matcher does not
treat it as `help` — it falls through to the unknown-command branch. -/
theorem claim_c6_cex :
    (commandToProcess "Boo" "boo:help").isSome = true
      ∧ parseIncoming "Boo" "boo:help" = some "unknown"
      ∧ parseIncoming "Boo" "boo:help" ≠ some "help" := by
  decide

/-- C6 amended: with display name `Boo`, the parser accepts `"boo: help"` and
`"BOO: help"` as the `help` command; `"boo:help"` matches the bot-address
check but is not recognized as `help` (the matcher requires a space after
the colon), yielding the unknown-command reply; `"boot: help"` and a body
without a colon are not treated as commands at all. -/
theorem claim_c6_parsing :
    parseIncoming "Boo" "boo: help" = some "help"
      ∧ parseIncoming "Boo" "BOO: help" = some "help"
      ∧ commandToProcess "Boo" "boo:help" = some "boo:help"
      ∧ parseIncoming "Boo" "boo:help" = some "unknown"
      ∧ commandToProcess "Boo" "boot: help" = none
      ∧ commandToProcess "Boo" "boo help" = none := by
  decide

/-- Counterexample to C4 as stated: three events on one plugin source, each
within the 1 second debounce window of its predecessor, schedule two reload
attempts — the second event does not reset any timer (there is none), it is
simply dropped, and the third fires because it is 1 second past the first. -/
theorem claim_c4_cex :
    (900 : Nat) - 0 < 1000 ∧ (1800 : Nat) - 900 < 1000
      ∧ (processEvents { lastModified := [] }
          [("plugins/example/plugin.py", 0), ("plugins/example/plugin.py", 900),
           ("plugins/example/plugin.py", 1800)]).2 = 2 := by
  decide

/-- C4 amended: the debounce is leading-edge — the first event on a fresh
plugin source triggers a reload immediately, and every further event within
1 second of that triggering event is dropped without updating the recorded
time, so a burst of events all within 1 second of the first schedules
exactly one reload attempt. -/
theorem claim_c4_debounce_leading_edge (st : FileHandlerState) (pth : String)
    (t0 : Nat) (ts : List Nat)
    (hpy : pyEndsWith pth "plugin.py" = true)
    (hfresh : dictGet st.lastModified pth = none)
    (hburst : ∀ t ∈ ts, t - t0 < 1000) :
    (processEvents st ((pth, t0) :: ts.map (fun t => (pth, t)))).2 = 1 := by
  have rest_lemma : ∀ (ts' : List Nat) (st' : FileHandlerState),
      dictGet st'.lastModified pth = some t0 →
      (∀ t ∈ ts', t - t0 < 1000) →
      processEvents st' (ts'.map (fun t => (pth, t))) = (st', 0) := by
    intro ts'
    induction ts' with
    | nil => intro st' _ _; rfl
    | cons t ts' ih =>
      intro st' hg hb
      have ht : t - t0 < 1000 := hb t (List.mem_cons_self t ts')
      rw [List.map_cons]
      simp only [processEvents, onModified, hpy, Bool.not_true, Bool.false_eq_true,
        if_false, hg, debounceTime, if_pos ht]
      rw [ih st' hg (fun x hx => hb x (List.mem_cons_of_mem t hx))]
      simp
  have hg1 : dictGet (dictSet st.lastModified pth t0) pth = some t0 :=
    dictGet_dictSet_self st.lastModified pth t0
  simp only [processEvents, onModified, hpy, Bool.not_true, Bool.false_eq_true, if_false,
    hfresh]
  rw [rest_lemma ts { lastModified := dictSet st.lastModified pth t0 } hg1 hburst]
  simp

/-- Witness for C4 amended: three events at 0, 500 and 999 ms on the same
plugin source schedule exactly one reload. -/
theorem claim_c4_witness :
    (processEvents { lastModified := [] }
        [("plugins/example/plugin.py", 0), ("plugins/example/plugin.py", 500),
         ("plugins/example/plugin.py", 999)]).2 = 1 :=
  claim_c4_debounce_leading_edge { lastModified := [] } "plugins/example/plugin.py" 0
    [500, 999] (by decide) rfl (by decide)

/-- Counterexample to C7 as stated: directory `beta` fails to load, then
directory `alpha` loads a plugin self-declaring the name `beta` — the success
clears the failed entry of `alpha` only, leaving `beta` simultaneously a key
of the plugins map and of the failed map. -/
theorem claim_c7_cex :
    (loadPluginFromFile { plugins := [], failed := [] } srcBroken "beta").1 = false
      ∧ (loadPluginFromFile
          (loadPluginFromFile { plugins := [], failed := [] } srcBroken "beta").2.1
          srcSelfBeta "alpha").1 = true
      ∧ dictContains (loadPluginFromFile
          (loadPluginFromFile { plugins := [], failed := [] } srcBroken "beta").2.1
          srcSelfBeta "alpha").2.1.plugins "beta" = true
      ∧ dictContains (loadPluginFromFile
          (loadPluginFromFile { plugins := [], failed := [] } srcBroken "beta").2.1
          srcSelfBeta "alpha").2.1.failed "beta" = true := by
  decide

theorem inv_fail_path (st : ManagerState) (pluginName msg : String)
    (hInv : stateInv st) (hnp : pluginName ∉ dictKeys st.plugins) :
    stateInv { st with failed := dictSet st.failed pluginName msg } := by
  constructor
  · intro k hk hmem
    rcases (mem_dictKeys_dictSet st.failed pluginName msg k).mp hmem with h | rfl
    · exact hInv.1 k hk h
    · exact hnp hk
  · exact hInv.2

theorem loadInv (st : ManagerState) (src : SourceUnit) (pluginName : String)
    (hInv : stateInv st)
    (hnp : pluginName ∉ dictKeys st.plugins)
    (hcls : ∀ cls ∈ src.classes, cls.pluginName ≠ pluginFileStem ∧
        (cls.pluginName = pluginName ∨ cls.pluginName ∉ dictKeys st.failed)) :
    stateInv (loadPluginFromFile st src pluginName).2.1 := by
  by_cases he : src.execOk
  · cases hcl : src.classes with
    | nil =>
      have heq : (loadPluginFromFile st src pluginName).2.1
          = { st with failed := dictSet st.failed pluginName "No BotPlugin subclass found" } := by
        simp [loadPluginFromFile, he, hcl]
      rw [heq]
      exact inv_fail_path st pluginName _ hInv hnp
    | cons cls rest =>
      obtain ⟨hstem, hdisj⟩ := hcls cls (by rw [hcl]; exact List.mem_cons_self cls rest)
      by_cases hini : cls.initOk
      · cases hold : dictGet st.plugins cls.pluginName with
        | none =>
          have hold' : dictGet st.plugins cls.instantiate.name = none := hold
          have heq : (loadPluginFromFile st src pluginName).2.1
              = { plugins := dictSet st.plugins cls.instantiate.name cls.instantiate
                  failed := dictPop st.failed pluginName } := by
            simp [loadPluginFromFile, he, hcl, hini, hold']
          rw [heq]
          constructor
          · intro k hk hmem
            have hname : cls.instantiate.name = cls.pluginName := rfl
            rcases (mem_dictKeys_dictSet _ _ _ k).mp hk with h | rfl
            · exact hInv.1 k h ((mem_dictKeys_dictPop st.failed pluginName k).mp hmem).1
            · rw [hname] at hmem
              rcases hdisj with rfl | hnf
              · exact ((mem_dictKeys_dictPop st.failed cls.pluginName
                  cls.pluginName).mp hmem).2 rfl
              · exact hnf ((mem_dictKeys_dictPop st.failed pluginName
                  cls.pluginName).mp hmem).1
          · intro hmem
            rcases (mem_dictKeys_dictSet _ _ _ pluginFileStem).mp hmem with h | h
            · exact hInv.2 h
            · exact hstem h.symm
        | some old =>
          have hold' : dictGet st.plugins cls.instantiate.name = some old := hold
          have hmemc : cls.pluginName ∈ dictKeys st.plugins :=
            dictGet_some_mem_dictKeys st.plugins cls.pluginName old hold
          by_cases hco : old.cleanupOk
          · have heq : (loadPluginFromFile st src pluginName).2.1
                = { plugins := dictSet st.plugins cls.instantiate.name cls.instantiate
                    failed := dictPop st.failed pluginName } := by
              simp [loadPluginFromFile, he, hcl, hini, hold', hco]
            rw [heq]
            constructor
            · intro k hk hmem
              have hname : cls.instantiate.name = cls.pluginName := rfl
              have hkp : k ∈ dictKeys st.plugins := by
                rcases (mem_dictKeys_dictSet _ _ _ k).mp hk with h | rfl
                · exact h
                · rw [hname]; exact hmemc
              exact hInv.1 k hkp ((mem_dictKeys_dictPop st.failed pluginName k).mp hmem).1
            · intro hmem
              rcases (mem_dictKeys_dictSet _ _ _ pluginFileStem).mp hmem with h | h
              · exact hInv.2 h
              · exact hstem h.symm
          · have hco' : old.cleanupOk = false := Bool.eq_false_iff.mpr hco
            have heq : (loadPluginFromFile st src pluginName).2.1
                = { st with failed := dictSet st.failed pluginName "cleanup raised" } := by
              simp [loadPluginFromFile, he, hcl, hini, hold', hco']
            rw [heq]
            exact inv_fail_path st pluginName _ hInv hnp
      · have hini' : cls.initOk = false := Bool.eq_false_iff.mpr hini
        have heq : (loadPluginFromFile st src pluginName).2.1
            = { st with failed := dictSet st.failed pluginName "Plugin initialization failed" } := by
          simp [loadPluginFromFile, he, hcl, hini']
        rw [heq]
        exact inv_fail_path st pluginName _ hInv hnp
  · have he' : src.execOk = false := Bool.eq_false_iff.mpr he
    have heq : (loadPluginFromFile st src pluginName).2.1
        = { st with failed := dictSet st.failed pluginName "Could not load module" } := by
      simp [loadPluginFromFile, he']
    rw [heq]
    exact inv_fail_path st pluginName _ hInv hnp

theorem unloadInv (st : ManagerState) (name : String) (hInv : stateInv st) :
    stateInv (unloadPlugin st name).2.1 := by
  cases hget : dictGet st.plugins name with
  | none => rw [unload_absent st name hget]; exact hInv
  | some p =>
    by_cases hco : p.cleanupOk
    · rw [unload_cleanup_ok st name p hget hco]
      constructor
      · intro k hk
        exact hInv.1 k ((mem_dictKeys_dictPop st.plugins name k).mp hk).1
      · intro hmem
        exact hInv.2 ((mem_dictKeys_dictPop st.plugins name pluginFileStem).mp hmem).1
    · rw [unload_cleanup_raises st name p hget (Bool.eq_false_iff.mpr hco)]
      exact hInv

theorem unload_state_props (st : ManagerState) (name : String) :
    (unloadPlugin st name).2.1.failed = st.failed
      ∧ ∀ k, k ∈ dictKeys (unloadPlugin st name).2.1.plugins → k ∈ dictKeys st.plugins := by
  cases hget : dictGet st.plugins name with
  | none => rw [unload_absent st name hget]; exact ⟨rfl, fun _ h => h⟩
  | some p =>
    by_cases hco : p.cleanupOk
    · rw [unload_cleanup_ok st name p hget hco]
      exact ⟨rfl, fun k hk => ((mem_dictKeys_dictPop st.plugins name k).mp hk).1⟩
    · rw [unload_cleanup_raises st name p hget (Bool.eq_false_iff.mpr hco)]
      exact ⟨rfl, fun _ h => h⟩

theorem reloadInv (st : ManagerState) (fe : Bool) (src : SourceUnit) (d : String)
    (hInv : stateInv st) (hmem : d ∈ dictKeys st.plugins) (hg : goodSrc d src) :
    stateInv (reloadPlugin st fe src d).2.1 := by
  cases fe with
  | false => simpa [reloadPlugin] using hInv
  | true =>
    have hc : dictContains st.plugins d = true := (dictContains_iff _ _).mpr hmem
    simp only [reloadPlugin, Bool.not_true, Bool.false_eq_true, if_false, hc, if_true]
    obtain ⟨hfl, hkeys⟩ := unload_state_props st d
    apply loadInv _ src pluginFileStem (unloadInv st d hInv)
    · intro hmem'
      exact hInv.2 (hkeys pluginFileStem hmem')
    · intro cls hcls
      have hname : cls.pluginName = d := hg.2 cls hcls
      refine ⟨hname ▸ hg.1, Or.inr ?_⟩
      rw [hname, hfl]
      exact hInv.1 d hmem

theorem fileChangeInv (st : ManagerState) (fe : Bool) (src : SourceUnit) (d : String)
    (hInv : stateInv st) (hg : goodSrc d src) :
    stateInv (handleFileChange st fe src d).2.1 := by
  by_cases hc : dictContains st.plugins d = true
  · simp only [handleFileChange, hc, if_true]
    exact reloadInv st fe src d hInv ((dictContains_iff _ _).mp hc) hg
  · have hc' : dictContains st.plugins d = false := Bool.eq_false_iff.mpr hc
    simp only [handleFileChange, hc', Bool.false_eq_true, if_false]
    apply loadInv st src d hInv ((dictContains_false_iff _ _).mp hc')
    intro cls hcls
    have hname : cls.pluginName = d := hg.2 cls hcls
    exact ⟨hname ▸ hg.1, Or.inl hname⟩

theorem fileDeleteInv (st : ManagerState) (d : String) (hInv : stateInv st) :
    stateInv (handleFileDeletion st d).1 := by
  by_cases hc : dictContains st.plugins d = true
  · simp only [handleFileDeletion, hc, if_true]
    exact unloadInv st d hInv
  · have hc' : dictContains st.plugins d = false := Bool.eq_false_iff.mpr hc
    simp only [handleFileDeletion, hc', Bool.false_eq_true, if_false]
    exact hInv

theorem toggleKeysInv (st : ManagerState)
    (plugins' : List (String × BotPlugin))
    (hkeys : dictKeys plugins' = dictKeys st.plugins) (hInv : stateInv st) :
    stateInv { plugins := plugins', failed := st.failed } := by
  constructor
  · intro k hk
    rw [hkeys] at hk
    exact hInv.1 k hk
  · rw [hkeys]
    exact hInv.2

theorem enableInv (st : ManagerState) (n : String) (hInv : stateInv st) :
    stateInv (enablePlugin st n).2 := by
  by_cases hc : dictContains st.plugins n = true
  · simp only [enablePlugin, hc, if_true]
    exact toggleKeysInv st _
      (dictKeys_mapAt st.plugins n (fun x => { x with enabled := true })) hInv
  · have hc' : dictContains st.plugins n = false := Bool.eq_false_iff.mpr hc
    simp only [enablePlugin, hc', Bool.false_eq_true, if_false]
    exact hInv

theorem disableInv (st : ManagerState) (n : String) (hInv : stateInv st) :
    stateInv (disablePlugin st n).2 := by
  by_cases hc : dictContains st.plugins n = true
  · simp only [disablePlugin, hc, if_true]
    exact toggleKeysInv st _
      (dictKeys_mapAt st.plugins n (fun x => { x with enabled := false })) hInv
  · have hc' : dictContains st.plugins n = false := Bool.eq_false_iff.mpr hc
    simp only [disablePlugin, hc', Bool.false_eq_true, if_false]
    exact hInv

theorem stepInv (st : ManagerState) (op : PMOp) (hInv : stateInv st)
    (hop : goodOp op) : stateInv (applyOp st op) := by
  cases op with
  | fileChange d fe src => exact fileChangeInv st fe src d hInv hop
  | fileDelete d => exact fileDeleteInv st d hInv
  | enable n => exact enableInv st n hInv
  | disable n => exact disableInv st n hInv

/-- C7 amended: over every sequence of watcher file-change and file-deletion
events and enable/disable toggles, a state in which the plugins and failed
maps share no key (and no registered plugin is keyed `"plugin"`) keeps that
property, provided every source unit's candidate classes self-declare their
directory's name and no watched directory is named `"plugin"`; the original
claim fails when a self-declared name differs from the directory name (the
success path clears the failed entry under the directory name while
registering under the self-declared name). -/
theorem claim_c7_disjoint_invariant (ops : List PMOp) (st : ManagerState)
    (hInv : stateInv st) (hops : ∀ op ∈ ops, goodOp op) :
    stateInv (runOps st ops) := by
  induction ops generalizing st with
  | nil => exact hInv
  | cons op ops ih =>
    rw [runOps, List.foldl_cons]
    exact ih (applyOp st op)
      (stepInv st op hInv (hops op (List.mem_cons_self op ops)))
      (fun x hx => hops x (List.mem_cons_of_mem op hx))

/-- Witness for C7 amended: the invariant holds of the one-plugin registry
and is preserved across a well-behaved load, a disable and a deletion. -/
theorem claim_c7_witness :
    stateInv stFoo
      ∧ stateInv (runOps stFoo
          [PMOp.fileChange "beta" true srcSelfBeta, PMOp.disable "foo",
           PMOp.fileDelete "foo"]) := by
  constructor
  · exact ⟨by decide, by decide⟩
  · exact claim_c7_disjoint_invariant
      [PMOp.fileChange "beta" true srcSelfBeta, PMOp.disable "foo", PMOp.fileDelete "foo"]
      stFoo ⟨by decide, by decide⟩
      (by
        intro op hop
        simp only [List.mem_cons, List.mem_singleton] at hop
        rcases hop with rfl | rfl | rfl | h
        · exact ⟨by decide, by decide⟩
        · exact trivial
        · exact trivial
        · exact absurd h (List.not_mem_nil op))
